import Mathlib

/-!
Shallow embedding of the `zacharyr0th/scrapers` repository:
`src/languages/scrape.py`, `src/repos/popular.py` and `src/repos/get_data.py`.

Network responses are abstracted as inputs: a contributors endpoint is a
function from page number to a response, a search run is a list of per-query
responses.  Loops whose termination depends on the endpoint are embedded with
an explicit fuel parameter; a result of `none` means the loop has not
terminated within the given fuel (in particular, `none` for every fuel means
the Python loop never terminates).  Uncaught Python exceptions are modelled by
the `Except` layer of a result.
-/

/-- Python exception classes relevant to the scripts: `requests.RequestException`
(raised by the HTTP layer, and the superclass of JSON-decode errors) and
`KeyError` (raised by a bare dict index such as `c['contributions']` when the
key is missing).  The scripts' `except requests.RequestException` handlers
catch only the former. -/
inductive PyExc where
  | requestException
  | keyError
deriving Repr, DecidableEq

/-- One contributor entry as parsed from a contributors-endpoint JSON body.
Every field is optional, modelling a JSON object that may lack any key. -/
structure CEntry where
  login : Option String
  contributions : Option Nat
  html_url : Option String
  type : Option String
deriving Repr, DecidableEq

/-- The contributors endpoint's behaviour on one page request: either the
fetch raises `requests.RequestException` (covering network failure,
`raise_for_status` and JSON-decode failure), or it succeeds with a list of
entries `data` and a bit recording whether the `Link` response header is
present. -/
inductive PageResponse where
  | error
  | ok (data : List CEntry) (hasLink : Bool)

/-- One item of a search-API response, restricted to the fields the scripts
read.  `description` and `language` are optional because the live API serves
`null` for them. -/
structure RepoItem where
  id : Nat
  full_name : String
  stargazers_count : Nat
  forks_count : Nat
  updated_at : String
  description : Option String
  topics : List String
  html_url : String
  language : Option String
deriving Repr, DecidableEq

/-- The search endpoint's behaviour on one query: either the fetch raises
`requests.RequestException`, or it succeeds and `data.get("items", [])`
yields `items`. -/
inductive QueryResponse where
  | error
  | ok (items : List RepoItem)

/-- Python's `repo["description"] or ""`: `None` and the empty string are
falsy, so the expression yields `""` exactly when the source value is `null`
or `""`, and the string itself otherwise. -/
def pyOrEmptyStr : Option String → String
  | none => ""
  | some s => if s = "" then "" else s

/-- The items contributed by one query response to the aggregation: a failed
query is skipped and contributes nothing. -/
def itemsOf : QueryResponse → List RepoItem
  | .error => []
  | .ok items => items

/-- Python's `str.title()` as applied by the scripts: their argument is a
single lowercase word (a language or blockchain name), for which `title()`
capitalizes the first character. -/
def pyTitle (s : String) : String := s.capitalize

/-- A JSON value, the shape of what `json.dump` serializes. -/
inductive JValue where
  | null
  | str (s : String)
  | num (n : Nat)
  | bool (b : Bool)
  | arr (elems : List JValue)
  | obj (fields : List (String × JValue))

/-- The keys of a serialized JSON object. -/
def JValue.keys : JValue → List String
  | .obj fields => fields.map Prod.fst
  | _ => []

/-- Field access in a serialized JSON object. -/
def JValue.lookup : JValue → String → Option JValue
  | .obj fields, k => fields.lookup k
  | _, _ => none

/-- One fixed rendering of a JSON value to the bytes of the output file.  The
concrete pretty-printing of `json.dump(..., indent=2)` is abstracted to this
fixed deterministic rendering; byte-identity of outputs depends only on the
rendering being a function of the value. -/
def JValue.render : JValue → String
  | .null => "null"
  | .str s => "\x22" ++ s ++ "\x22"
  | .num n => toString n
  | .bool b => if b then "true" else "false"
  | .arr elems => "[" ++
      String.intercalate ", " (elems.attach.map fun e => render e.1) ++ "]"
  | .obj fields => "\x7b" ++
      String.intercalate ", "
        (fields.attach.map fun kv => "\x22" ++ kv.1.1 ++ "\x22: " ++ render kv.1.2) ++
      "\x7d"
decreasing_by
  · exact Nat.lt_of_lt_of_le (List.sizeOf_lt_of_mem e.2) (by simp +arith)
  · calc sizeOf kv.1.2 < sizeOf kv.1 := by cases kv.1 with | mk a b => simp +arith
      _ ≤ sizeOf fields := Nat.le_of_lt (List.sizeOf_lt_of_mem kv.2)
      _ < sizeOf (JValue.obj fields) := by simp +arith

namespace Languages

/-- The contributor dict built in `get_all_contributors` of
`src/languages/scrape.py` (keys `username`, `contributions`, `profile`,
`type`). -/
structure Contributor where
  username : String
  contributions : Nat
  profile : String
  type : String
deriving Repr, DecidableEq

/-- One element of the list comprehension in `get_all_contributors` of
`src/languages/scrape.py`: `c.get('login', 'anonymous')`,
`c['contributions']`, `c.get('html_url', '')`, `c.get('type', 'Anonymous')`.
The bare index `c['contributions']` raises `KeyError` when the key is
missing; the other three fields fall back to sentinel defaults. -/
def mkContributor (c : CEntry) : Except PyExc Contributor :=
  match c.contributions with
  | none => .error .keyError
  | some n =>
    .ok { username := c.login.getD "anonymous", contributions := n,
          profile := c.html_url.getD "", type := c.type.getD "Anonymous" }

/-- The `while True` pagination loop of `get_all_contributors` in
`src/languages/scrape.py`.  `ep` maps the requested page number to the
endpoint's response; `page` and `acc` are the loop variables (`page` starts
at 1, `acc` at `[]`).  A `requests.RequestException` is caught: the loop
breaks with `all_fetched = False` and the partial accumulation is returned.
An empty page, or a response without a `Link` header, breaks the loop with
`all_fetched = True`.  Otherwise `page` is incremented (`page += 1`) and the
loop continues.  A `KeyError` from `mkContributor` is not caught and escapes
as `Except.error`. -/
def get_all_contributors (ep : Nat → PageResponse) :
    Nat → Nat → List Contributor → Option (Except PyExc (List Contributor × Bool))
  | 0, _, _ => none
  | fuel + 1, page, acc =>
    match ep page with
    | .error => some (.ok (acc, false))
    | .ok data hasLink =>
      if data.isEmpty then some (.ok (acc, true))
      else
        match data.mapM mkContributor with
        | .error e => some (.error e)
        | .ok recs =>
          if hasLink then get_all_contributors ep fuel (page + 1) (acc ++ recs)
          else some (.ok (acc ++ recs, true))

/-- The `LanguageRepo` dataclass of `src/languages/scrape.py`.  `contributors`
is `None` (`none`) unless contributor fetching was requested;
`all_contributors_fetched` defaults to `False`. -/
structure LanguageRepo where
  name : String
  stars : Nat
  forks : Nat
  last_updated : String
  description : String
  topics : List String
  url : String
  language : Option String
  contributors : Option (List Contributor)
  all_contributors_fetched : Bool
deriving Repr, DecidableEq

/-- The `LanguageRepo(...)` constructor call in `search_language_repos`
(field-by-field from the search item; `description` goes through
`repo["description"] or ""`). -/
def mkLanguageRepo (repo : RepoItem) (contributors : Option (List Contributor))
    (all_contributors_fetched : Bool) : LanguageRepo :=
  { name := repo.full_name, stars := repo.stargazers_count,
    forks := repo.forks_count, last_updated := repo.updated_at,
    description := pyOrEmptyStr repo.description, topics := repo.topics,
    url := repo.html_url, language := repo.language,
    contributors := contributors,
    all_contributors_fetched := all_contributors_fetched }

/-- The per-item record construction of `search_language_repos`:
`contributors = None` and `all_contributors_fetched = False` unless
`fetch_contributors` is set, in which case the paginated collector is run
for the item's repository (`contribEp repo.full_name` is that repository's
contributors endpoint).  `none` propagates a non-terminating collector run;
`Except.error` propagates an uncaught `KeyError` from the collector. -/
def buildRepo (fuel : Nat) (contribEp : String → Nat → PageResponse)
    (fetch_contributors : Bool) (repo : RepoItem) :
    Option (Except PyExc LanguageRepo) :=
  if fetch_contributors then
    match get_all_contributors (contribEp repo.full_name) fuel 1 [] with
    | none => none
    | some (.error e) => some (.error e)
    | some (.ok (cs, flag)) => some (.ok (mkLanguageRepo repo (some cs) flag))
  else some (.ok (mkLanguageRepo repo none false))

/-- The `for repo in data.get("items", [])` loop of `search_language_repos`.
`all_repos` is the Python dict keyed by `repo["id"]`, embedded as an
insertion-ordered association list; an item is processed only when it meets
the star and fork thresholds and its id is not yet a key. -/
def processItems (fuel : Nat) (contribEp : String → Nat → PageResponse)
    (min_stars min_forks : Nat) (fetch_contributors : Bool) :
    List RepoItem → List (Nat × LanguageRepo) →
    Option (Except PyExc (List (Nat × LanguageRepo)))
  | [], all_repos => some (.ok all_repos)
  | repo :: rest, all_repos =>
    if min_stars ≤ repo.stargazers_count ∧ min_forks ≤ repo.forks_count ∧
        (all_repos.lookup repo.id).isNone then
      match buildRepo fuel contribEp fetch_contributors repo with
      | none => none
      | some (.error e) => some (.error e)
      | some (.ok rec) =>
        processItems fuel contribEp min_stars min_forks fetch_contributors rest
          (all_repos ++ [(repo.id, rec)])
    else
      processItems fuel contribEp min_stars min_forks fetch_contributors rest all_repos

/-- The `for query in queries` loop of `search_language_repos`: a query whose
fetch raises `requests.RequestException` is logged and skipped
(`except` + `continue` to the next query); a `KeyError` escaping the body is
not caught and aborts the whole call. -/
def processQueries (fuel : Nat) (contribEp : String → Nat → PageResponse)
    (min_stars min_forks : Nat) (fetch_contributors : Bool) :
    List QueryResponse → List (Nat × LanguageRepo) →
    Option (Except PyExc (List (Nat × LanguageRepo)))
  | [], all_repos => some (.ok all_repos)
  | .error :: rest, all_repos =>
    processQueries fuel contribEp min_stars min_forks fetch_contributors rest all_repos
  | .ok items :: rest, all_repos =>
    match processItems fuel contribEp min_stars min_forks fetch_contributors items all_repos with
    | none => none
    | some (.error e) => some (.error e)
    | some (.ok all_repos2) =>
      processQueries fuel contribEp min_stars min_forks fetch_contributors rest all_repos2

/-- `search_language_repos` of `src/languages/scrape.py`, over an abstract
list of per-query search responses and a contributors-endpoint environment
keyed by repository full name.  The final statement
`sorted(all_repos.values(), key=lambda x: x.stars, reverse=True)` is
Python's stable sort in descending `stars` order; all stable sorts agree, so
it is embedded as the stable `List.insertionSort` with the reversed
comparison (records with equal `stars` keep their insertion order). -/
def search_language_repos (fuel : Nat) (contribEp : String → Nat → PageResponse)
    (responses : List QueryResponse) (min_stars min_forks : Nat)
    (fetch_contributors : Bool) : Option (Except PyExc (List LanguageRepo)) :=
  match processQueries fuel contribEp min_stars min_forks fetch_contributors responses [] with
  | none => none
  | some (.error e) => some (.error e)
  | some (.ok all_repos) =>
    some (.ok (List.insertionSort (fun a b => b.stars ≤ a.stars)
      (all_repos.map Prod.snd)))

/-- The value sequence `all_repos.values()` of a `search_language_repos` run
before the final sort: the accumulated records in insertion order. -/
def insertion_list (fuel : Nat) (contribEp : String → Nat → PageResponse)
    (responses : List QueryResponse) (min_stars min_forks : Nat)
    (fetch_contributors : Bool) : Option (Except PyExc (List LanguageRepo)) :=
  match processQueries fuel contribEp min_stars min_forks fetch_contributors responses [] with
  | none => none
  | some (.error e) => some (.error e)
  | some (.ok all_repos) => some (.ok (all_repos.map Prod.snd))

/-- The stream of search items that pass the client-side star/fork filter of
`search_language_repos`, in query order then within-query order. -/
def survivors (min_stars min_forks : Nat) (responses : List QueryResponse) :
    List RepoItem :=
  (responses.flatMap itemsOf).filter fun r =>
    decide (min_stars ≤ r.stargazers_count) && decide (min_forks ≤ r.forks_count)

/-- The JSON object `json.dump` produces for one contributor dict. -/
def contributorJson (c : Contributor) : JValue :=
  .obj [("username", .str c.username), ("contributions", .num c.contributions),
        ("profile", .str c.profile), ("type", .str c.type)]

/-- The dict built per repository inside the `json.dump(...)` call of
`save_results` in `src/languages/scrape.py`.  The listed keys are exactly
the ones in the source: the dataclass field `all_contributors_fetched` is
not among them. -/
def repoJson (r : LanguageRepo) : JValue :=
  .obj [("name", .str r.name), ("stars", .num r.stars), ("forks", .num r.forks),
        ("last_updated", .str r.last_updated),
        ("description", .str r.description),
        ("topics", .arr (r.topics.map .str)),
        ("url", .str r.url),
        ("language", match r.language with | none => .null | some s => .str s),
        ("contributors", match r.contributors with
          | none => .null
          | some cs => .arr (cs.map contributorJson))]

/-- The bytes of the JSON file written by `save_results` of
`src/languages/scrape.py` for a result collection. -/
def jsonDoc (repos : List LanguageRepo) : String :=
  (JValue.arr (repos.map repoJson)).render

/-- The Markdown block written per repository by `save_results` of
`src/languages/scrape.py`: heading with link, star/fork line, description,
topics line when the topic list is truthy, and — when the contributors
field is truthy (neither `None` nor empty) — the ten
highest-contribution entries of Python's stable descending sort. -/
def repoMarkdown (r : LanguageRepo) : String :=
  "## [" ++ r.name ++ "](" ++ r.url ++ ")\n" ++
  "⭐ Stars: " ++ toString r.stars ++ " | 🔄 Forks: " ++ toString r.forks ++ "\n\n" ++
  r.description ++ "\n\n" ++
  (if r.topics.isEmpty then ""
   else "**Topics:** " ++ String.intercalate ", " r.topics ++ "\n\n") ++
  (match r.contributors with
   | none => ""
   | some cs =>
     if cs.isEmpty then ""
     else
       "### Top Contributors:\n" ++
       String.join
         (((List.insertionSort (fun a b => b.contributions ≤ a.contributions)
             cs).take 10).map
           fun c => "- [" ++ c.username ++ "](" ++ c.profile ++ "): " ++
             toString c.contributions ++ " contributions\n")) ++
  "---\n\n"

/-- The bytes of the Markdown file written by `save_results` of
`src/languages/scrape.py`.  `now` is the formatted
`datetime.now().strftime('%Y-%m-%d %H:%M:%S')` timestamp. -/
def markdownDoc (language now : String) (repos : List LanguageRepo) : String :=
  "# " ++ pyTitle language ++ " Blockchain Repositories\n\n" ++
  "Generated on: " ++ now ++ "\n\n" ++
  String.join (repos.map repoMarkdown)

/-- One full run of `src/languages/scrape.py` on given API responses: the
aggregation followed by `save_results`, yielding the pair
(Markdown file bytes, JSON file bytes).  The wall-clock timestamp `now` is
an explicit input. -/
def pipelineOutput (fuel : Nat) (contribEp : String → Nat → PageResponse)
    (responses : List QueryResponse) (min_stars min_forks : Nat)
    (fetch_contributors : Bool) (language now : String) :
    Option (Except PyExc (String × String)) :=
  match search_language_repos fuel contribEp responses min_stars min_forks
      fetch_contributors with
  | none => none
  | some (.error e) => some (.error e)
  | some (.ok repos) =>
    some (.ok (markdownDoc language now repos, jsonDoc repos))

end Languages

namespace Popular

/-- The contributor dict built in `get_all_contributors` of
`src/repos/popular.py`; compared with the languages variant it carries the
extra key `repo` (the source repository's full name). -/
structure Contributor where
  username : String
  contributions : Nat
  profile : String
  type : String
  repo : String
deriving Repr, DecidableEq

/-- One element of the list comprehension in `get_all_contributors` of
`src/repos/popular.py`: the same field fallbacks as the languages variant,
plus `'repo': repo_name`. -/
def mkContributor (repo_name : String) (c : CEntry) : Except PyExc Contributor :=
  match c.contributions with
  | none => .error .keyError
  | some n =>
    .ok { username := c.login.getD "anonymous", contributions := n,
          profile := c.html_url.getD "", type := c.type.getD "Anonymous",
          repo := repo_name }

/-- The `while True` pagination loop of `get_all_contributors` in
`src/repos/popular.py`.  The structure mirrors the languages variant, but the
source contains no `page += 1` statement anywhere: when the `Link` header is
present the loop runs again with the same `page` value, so the recursive
call below passes `page` unchanged.  On `requests.RequestException` the
function executes `return contributors, False`. -/
def get_all_contributors (repo_name : String) (ep : Nat → PageResponse) :
    Nat → Nat → List Contributor → Option (Except PyExc (List Contributor × Bool))
  | 0, _, _ => none
  | fuel + 1, page, acc =>
    match ep page with
    | .error => some (.ok (acc, false))
    | .ok data hasLink =>
      if data.isEmpty then some (.ok (acc, true))
      else
        match data.mapM (mkContributor repo_name) with
        | .error e => some (.error e)
        | .ok recs =>
          if hasLink then get_all_contributors repo_name ep fuel page (acc ++ recs)
          else some (.ok (acc ++ recs, true))

/-- The `BlockchainRepo` dataclass of `src/repos/popular.py` (same fields as
the languages variant except that there is no `language` field). -/
structure BlockchainRepo where
  name : String
  stars : Nat
  forks : Nat
  last_updated : String
  description : String
  topics : List String
  url : String
  contributors : Option (List Contributor)
  all_contributors_fetched : Bool
deriving Repr, DecidableEq

/-- The `BlockchainRepo(...)` constructor call in `search_blockchain_repos`. -/
def mkBlockchainRepo (repo : RepoItem) (contributors : Option (List Contributor))
    (all_contributors_fetched : Bool) : BlockchainRepo :=
  { name := repo.full_name, stars := repo.stargazers_count,
    forks := repo.forks_count, last_updated := repo.updated_at,
    description := pyOrEmptyStr repo.description, topics := repo.topics,
    url := repo.html_url, contributors := contributors,
    all_contributors_fetched := all_contributors_fetched }

/-- The per-item record construction of `search_blockchain_repos`.  Besides
the record it yields the list appended to the flat `all_contributors`
accumulator: `if contributors: all_contributors.extend(contributors)` adds
the collector's result only when it is truthy (a non-empty list). -/
def buildRepo (fuel : Nat) (contribEp : String → Nat → PageResponse)
    (fetch_contributors : Bool) (repo : RepoItem) :
    Option (Except PyExc (BlockchainRepo × List Contributor)) :=
  if fetch_contributors then
    match get_all_contributors repo.full_name (contribEp repo.full_name) fuel 1 [] with
    | none => none
    | some (.error e) => some (.error e)
    | some (.ok (cs, flag)) =>
      some (.ok (mkBlockchainRepo repo (some cs) flag,
                 if cs.isEmpty then [] else cs))
  else some (.ok (mkBlockchainRepo repo none false, []))

/-- The `for repo in data.get("items", [])` loop of `search_blockchain_repos`.
Unlike the languages variant there is no client-side star/fork filter (the
thresholds are part of the query URL, hence of the abstract response); the
only guard is `repo["id"] not in all_repos`. -/
def processItems (fuel : Nat) (contribEp : String → Nat → PageResponse)
    (fetch_contributors : Bool) :
    List RepoItem → List (Nat × BlockchainRepo) → List Contributor →
    Option (Except PyExc (List (Nat × BlockchainRepo) × List Contributor))
  | [], all_repos, all_contributors => some (.ok (all_repos, all_contributors))
  | repo :: rest, all_repos, all_contributors =>
    if (all_repos.lookup repo.id).isNone then
      match buildRepo fuel contribEp fetch_contributors repo with
      | none => none
      | some (.error e) => some (.error e)
      | some (.ok (rec, cs)) =>
        processItems fuel contribEp fetch_contributors rest
          (all_repos ++ [(repo.id, rec)]) (all_contributors ++ cs)
    else
      processItems fuel contribEp fetch_contributors rest all_repos all_contributors

/-- The `for query in queries` loop of `search_blockchain_repos`: a
`requests.RequestException` is logged and the query skipped; other
exceptions escape. -/
def processQueries (fuel : Nat) (contribEp : String → Nat → PageResponse)
    (fetch_contributors : Bool) :
    List QueryResponse → List (Nat × BlockchainRepo) → List Contributor →
    Option (Except PyExc (List (Nat × BlockchainRepo) × List Contributor))
  | [], all_repos, all_contributors => some (.ok (all_repos, all_contributors))
  | .error :: rest, all_repos, all_contributors =>
    processQueries fuel contribEp fetch_contributors rest all_repos all_contributors
  | .ok items :: rest, all_repos, all_contributors =>
    match processItems fuel contribEp fetch_contributors items all_repos all_contributors with
    | none => none
    | some (.error e) => some (.error e)
    | some (.ok (all_repos2, all_contributors2)) =>
      processQueries fuel contribEp fetch_contributors rest all_repos2 all_contributors2

/-- `search_blockchain_repos` of `src/repos/popular.py`.  The `min_stars` and
`min_forks` arguments enter only the query URL (`query_with_filters`), so in
this embedding they shape the abstract responses and do not appear in the
aggregation; the return value is Python's stable descending sort by `stars`
of `all_repos.values()`, embedded as the stable `List.insertionSort`. -/
def search_blockchain_repos (fuel : Nat) (contribEp : String → Nat → PageResponse)
    (responses : List QueryResponse) (fetch_contributors : Bool) :
    Option (Except PyExc (List BlockchainRepo)) :=
  match processQueries fuel contribEp fetch_contributors responses [] [] with
  | none => none
  | some (.error e) => some (.error e)
  | some (.ok (all_repos, _)) =>
    some (.ok (List.insertionSort (fun a b => b.stars ≤ a.stars)
      (all_repos.map Prod.snd)))

/-- The value sequence `all_repos.values()` of a `search_blockchain_repos`
run before the final sort. -/
def insertion_list (fuel : Nat) (contribEp : String → Nat → PageResponse)
    (responses : List QueryResponse) (fetch_contributors : Bool) :
    Option (Except PyExc (List BlockchainRepo)) :=
  match processQueries fuel contribEp fetch_contributors responses [] [] with
  | none => none
  | some (.error e) => some (.error e)
  | some (.ok (all_repos, _)) => some (.ok (all_repos.map Prod.snd))

/-- The JSON object `json.dump` produces for one contributor dict of the
popular variant (which carries the extra `repo` key). -/
def contributorJson (c : Contributor) : JValue :=
  .obj [("username", .str c.username), ("contributions", .num c.contributions),
        ("profile", .str c.profile), ("type", .str c.type),
        ("repo", .str c.repo)]

/-- The dict `vars(repo)` serialized per repository by `save_results` of
`src/repos/popular.py` with `format == "json"`: every dataclass field in
declaration order, including `all_contributors_fetched`. -/
def repoJson (r : BlockchainRepo) : JValue :=
  .obj [("name", .str r.name), ("stars", .num r.stars), ("forks", .num r.forks),
        ("last_updated", .str r.last_updated),
        ("description", .str r.description),
        ("topics", .arr (r.topics.map .str)),
        ("url", .str r.url),
        ("contributors", match r.contributors with
          | none => .null
          | some cs => .arr (cs.map contributorJson)),
        ("all_contributors_fetched", .bool r.all_contributors_fetched)]

end Popular

namespace GetData

/-- A scalar or list value of one protocol field as served by the protocol
listing endpoint (`https://api.llama.fi/protocols`); `chains` holds a list
of chain names. -/
inductive PValue where
  | str (s : String)
  | num (n : Int)
  | bool (b : Bool)
  | null
  | strList (l : List String)
deriving Repr, DecidableEq

/-- One protocol entry: a JSON object with an open-ended key set, embedded as
an ordered association list (Python dict keys are unique and ordered). -/
abbrev Protocol := List (String × PValue)

/-- Python's `str(value)` as the CSV writer applies it to a cell; the `csv`
module writes `None` as an empty field. -/
def pvalueStr : PValue → String
  | .str s => s
  | .num n => toString n
  | .bool b => if b then "True" else "False"
  | .null => ""
  | .strList l =>
    "[" ++ String.intercalate ", " (l.map fun s => "\x27" ++ s ++ "\x27") ++ "]"

/-- The filter `"Solana" in protocol.get("chains", [])` of `get_data`:
membership of the chain name in the entry's `chains` list, with a missing
`chains` key defaulting to the empty list. -/
def hasChain (chain : String) (p : Protocol) : Bool :=
  match p.lookup "chains" with
  | some (.strList l) => l.contains chain
  | _ => false

/-- The list comprehension `[protocol for protocol in data if "Solana" in
protocol.get("chains", [])]` of `get_data`. -/
def solana_protocols (data : List Protocol) : List Protocol :=
  data.filter (hasChain "Solana")

/-- Lexicographic comparison of code-point sequences: Python's `<=` on `str`,
which `sorted` applies to the field names. -/
def strLe : List Char → List Char → Bool
  | [], _ => true
  | _ :: _, [] => false
  | c :: cs, d :: ds =>
    if c.toNat < d.toNat then true
    else if d.toNat < c.toNat then false
    else strLe cs ds

/-- Python's `a <= b` on strings. -/
def pyStrLe (a b : String) : Bool := strLe a.data b.data

/-- The header computation of `get_data`: `fieldnames` is a set updated with
every included protocol's keys, then `sorted(list(fieldnames))` — the
alphabetically sorted list of the distinct keys (Python sorts strings by
code point; the stable sort is embedded as `List.insertionSort`). -/
def fieldnames (ps : List Protocol) : List String :=
  List.insertionSort (fun a b => pyStrLe a b)
    ((ps.flatMap fun p => p.map Prod.fst).dedup)

/-- One data row written by `csv.DictWriter.writerows` in `get_data`: for
each header field the entry's value when the key is present, else the
writer's default `restval` (the empty string). -/
def csvRow (header : List String) (p : Protocol) : List String :=
  header.map fun f =>
    match p.lookup f with
    | some v => pvalueStr v
    | none => ""

/-- The cell grid of the CSV file written by `get_data`: the header row
followed by one row per included protocol. -/
def get_data_csv (data : List Protocol) : List (List String) :=
  let ps := solana_protocols data
  let header := fieldnames ps
  header :: ps.map (csvRow header)

end GetData

/-- A contributor entry with every field present (used as concrete test
input). -/
def sampleEntry (i : Nat) : CEntry :=
  { login := some ("user" ++ toString i), contributions := some (i + 1),
    html_url := some "https://example.org", type := some "User" }

/-- A contributors endpoint serving pages of sizes 100, 100, 37, 0, with the
`Link` header present on every non-empty page (as the live API does while
further pages exist). -/
def ep237 : Nat → PageResponse
  | 1 => .ok ((List.range 100).map sampleEntry) true
  | 2 => .ok ((List.range 100).map sampleEntry) true
  | 3 => .ok ((List.range 37).map sampleEntry) true
  | _ => .ok [] true

/-- The records the popular variant builds from the 100 entries of page 1 of
`ep237`. -/
def popularPage1 (repo_name : String) : List Popular.Contributor :=
  (List.range 100).map fun i =>
    { username := "user" ++ toString i, contributions := i + 1,
      profile := "https://example.org", type := "User", repo := repo_name }

/-- A contributors endpoint whose first page succeeds (with a `Link` header
signalling more pages) and whose second page's fetch raises a transport
error. -/
def epErr2 : Nat → PageResponse
  | 1 => .ok [sampleEntry 0, sampleEntry 1, sampleEntry 2] true
  | 2 => .error
  | _ => .ok [] true

/-- A contributor entry whose JSON object lacks the `contributions` key. -/
def badEntry : CEntry :=
  { login := some "ghost", contributions := none, html_url := none, type := none }

/-- A contributors endpoint whose first page contains a malformed entry. -/
def epBad : Nat → PageResponse := fun _ => .ok [badEntry] true

/-- A well-behaved single-page contributors endpoint. -/
def epGood : Nat → PageResponse := fun page =>
  if page = 1 then .ok [sampleEntry 0] false else .ok [] true

/-- Concrete search items for witness runs; `itemA` and `itemA2` carry the
same id with different field values. -/
def itemA : RepoItem :=
  { id := 1, full_name := "octo/alpha", stargazers_count := 50, forks_count := 5,
    updated_at := "2025-01-01T00:00:00Z", description := some "first",
    topics := ["defi"], html_url := "https://example.org/alpha",
    language := some "Rust" }

def itemB : RepoItem :=
  { id := 2, full_name := "octo/beta", stargazers_count := 70, forks_count := 3,
    updated_at := "2025-01-02T00:00:00Z", description := none,
    topics := [], html_url := "https://example.org/beta", language := none }

def itemA2 : RepoItem :=
  { id := 1, full_name := "octo/alpha", stargazers_count := 51, forks_count := 6,
    updated_at := "2025-01-03T00:00:00Z", description := some "fresher",
    topics := ["defi"], html_url := "https://example.org/alpha",
    language := some "Rust" }

def itemC : RepoItem :=
  { id := 3, full_name := "octo/gamma", stargazers_count := 50, forks_count := 1,
    updated_at := "2025-01-04T00:00:00Z", description := some "tie",
    topics := [], html_url := "https://example.org/gamma", language := some "Go" }

/-- The records the languages variant builds from page 1 of `epErr2`. -/
def epErr2LangPage1 : List Languages.Contributor :=
  [{ username := "user0", contributions := 1, profile := "https://example.org",
     type := "User" },
   { username := "user1", contributions := 2, profile := "https://example.org",
     type := "User" },
   { username := "user2", contributions := 3, profile := "https://example.org",
     type := "User" }]

/-- The records the popular variant builds from page 1 of `epErr2`. -/
def epErr2PopPage1 (repo_name : String) : List Popular.Contributor :=
  [{ username := "user0", contributions := 1, profile := "https://example.org",
     type := "User", repo := repo_name },
   { username := "user1", contributions := 2, profile := "https://example.org",
     type := "User", repo := repo_name },
   { username := "user2", contributions := 3, profile := "https://example.org",
     type := "User", repo := repo_name }]

/-- Concrete protocol entries with heterogeneous field sets; `protoC` is not
on the target chain. -/
def protoA : GetData.Protocol :=
  [("name", .str "Alpha"), ("tvl", .num 100), ("category", .str "Dexes"),
   ("chains", .strList ["Solana", "Ethereum"])]

def protoB : GetData.Protocol :=
  [("name", .str "Beta"), ("tvl", .num 50), ("change_1d", .num 2),
   ("chains", .strList ["Solana"])]

def protoC : GetData.Protocol :=
  [("name", .str "Gamma"), ("tvl", .num 10), ("chains", .strList ["Ethereum"])]

/-- A concrete language-variant record with every field populated. -/
def sampleLanguageRepo : Languages.LanguageRepo :=
  { name := "octo/alpha", stars := 50, forks := 5,
    last_updated := "2025-01-01T00:00:00Z", description := "first",
    topics := ["defi"], url := "https://example.org/alpha",
    language := some "Rust",
    contributors := some [{ username := "user0", contributions := 7,
                            profile := "https://example.org", type := "User" }],
    all_contributors_fetched := true }

/-- A concrete popular-variant record. -/
def sampleBlockchainRepo : Popular.BlockchainRepo :=
  { name := "octo/beta", stars := 70, forks := 3,
    last_updated := "2025-01-02T00:00:00Z", description := "",
    topics := [], url := "https://example.org/beta",
    contributors := none, all_contributors_fetched := false }

/-- A concrete response sequence in which id 1 appears in the first and the
third query (with different field values) and the second query fails. -/
def c2responses : List QueryResponse :=
  [.ok [itemA, itemB], .error, .ok [itemA2, itemC]]

/-- The mapping a no-enrichment languages run accumulates on `c2responses`. -/
def c2map : List (Nat × Languages.LanguageRepo) :=
  [(1, Languages.mkLanguageRepo itemA none false),
   (2, Languages.mkLanguageRepo itemB none false),
   (3, Languages.mkLanguageRepo itemC none false)]

/-- The mapping a no-enrichment popular run accumulates on `c2responses`. -/
def c2mapP : List (Nat × Popular.BlockchainRepo) :=
  [(1, Popular.mkBlockchainRepo itemA none false),
   (2, Popular.mkBlockchainRepo itemB none false),
   (3, Popular.mkBlockchainRepo itemC none false)]

/-- A concrete response sequence with a star tie between `itemA` and `itemC`
(50 stars each) across different queries. -/
def c3responses : List QueryResponse := [.ok [itemA, itemB], .ok [itemC]]

/-- The sorted output of the languages run on `c3responses`: descending
stars, with the 50-star tie in insertion order. -/
def c3out : List Languages.LanguageRepo :=
  [Languages.mkLanguageRepo itemB none false,
   Languages.mkLanguageRepo itemA none false,
   Languages.mkLanguageRepo itemC none false]

/-- The sorted output of the popular run on `c3responses`. -/
def c3outP : List Popular.BlockchainRepo :=
  [Popular.mkBlockchainRepo itemB none false,
   Popular.mkBlockchainRepo itemA none false,
   Popular.mkBlockchainRepo itemC none false]

/-- A contributor entry whose JSON object has a `contributions` count but no
`login`, `html_url` or `type` key. -/
def anonEntry : CEntry :=
  { login := none, contributions := some 3, html_url := none, type := none }

/-!  Theorems.  Helper lemmas come first; the claim theorems follow. -/

theorem popular_ep237_step (repo_name : String) (n : Nat)
    (acc : List Popular.Contributor) :
    Popular.get_all_contributors repo_name ep237 (n + 1) 1 acc =
      Popular.get_all_contributors repo_name ep237 n 1 (acc ++ popularPage1 repo_name) := by
  rfl

theorem popular_ep237_diverges (repo_name : String) :
    ∀ fuel acc, Popular.get_all_contributors repo_name ep237 fuel 1 acc = none := by
  intro fuel
  induction fuel with
  | zero => intro acc; rfl
  | succ n ih =>
    intro acc
    rw [popular_ep237_step]
    exact ih _

theorem popular_epErr2_step (repo_name : String) (n : Nat)
    (acc : List Popular.Contributor) :
    Popular.get_all_contributors repo_name epErr2 (n + 1) 1 acc =
      Popular.get_all_contributors repo_name epErr2 n 1 (acc ++ epErr2PopPage1 repo_name) := by
  rfl

theorem popular_epErr2_diverges (repo_name : String) :
    ∀ fuel acc, Popular.get_all_contributors repo_name epErr2 fuel 1 acc = none := by
  intro fuel
  induction fuel with
  | zero => intro acc; rfl
  | succ n ih =>
    intro acc
    rw [popular_epErr2_step]
    exact ih _

/-- C1: on an endpoint serving pages of sizes [100, 100, 37, 0], the
languages variant of `get_all_contributors` requests pages 1, 2, 3, 4 and
returns 237 records with the completeness flag true — but the popular
variant never executes `page += 1`, so on the very same endpoint it refetches
page 1 forever and never returns, for every iteration bound.  The claim, which
asserts the successive-page behaviour for both variants, fails on
`src/repos/popular.py`. -/
theorem C1_paginated_collector :
    (Languages.get_all_contributors ep237 5 1 []).map
        (fun e => e.map fun p => (p.1.length, p.2)) = some (.ok (237, true)) ∧
    ∀ fuel acc, Popular.get_all_contributors "octo/beta" ep237 fuel 1 acc = none := by
  exact ⟨rfl, popular_ep237_diverges "octo/beta"⟩

/-- C4: on an endpoint whose second page raises a transport error, the
languages variant of `get_all_contributors` stops at once and returns exactly
the first page's records with the completeness flag false, as the claim
states — but the popular variant never requests page 2 at all (no
`page += 1` in the source): on the same endpoint it refetches the successful
page 1 forever and never returns, so the claim's error-on-second-page
behaviour fails on `src/repos/popular.py`. -/
theorem C4_transport_error_partial :
    Languages.get_all_contributors epErr2 5 1 [] =
        some (.ok (epErr2LangPage1, false)) ∧
    ∀ fuel acc, Popular.get_all_contributors "octo/alpha" epErr2 fuel 1 acc = none := by
  exact ⟨rfl, popular_epErr2_diverges "octo/alpha"⟩

namespace Languages

theorem processItems_append (fuel : Nat) (contribEp : String → Nat → PageResponse)
    (ms mf : Nat) (f : Bool) (a b : List RepoItem) :
    ∀ m, processItems fuel contribEp ms mf f (a ++ b) m =
      match processItems fuel contribEp ms mf f a m with
      | none => none
      | some (.error e) => some (.error e)
      | some (.ok m2) => processItems fuel contribEp ms mf f b m2 := by
  induction a with
  | nil => intro m; simp [processItems]
  | cons hd tl ih =>
    intro m
    simp only [List.cons_append, processItems]
    by_cases h : ms ≤ hd.stargazers_count ∧ mf ≤ hd.forks_count ∧
        (m.lookup hd.id).isNone
    · rw [if_pos h, if_pos h]
      cases hb : buildRepo fuel contribEp f hd with
      | none => rfl
      | some r =>
        cases r with
        | error e => rfl
        | ok rec => exact ih _
    · rw [if_neg h, if_neg h]
      exact ih m

theorem processQueries_eq_processItems (fuel : Nat)
    (contribEp : String → Nat → PageResponse) (ms mf : Nat) (f : Bool)
    (responses : List QueryResponse) :
    ∀ m, processQueries fuel contribEp ms mf f responses m =
      processItems fuel contribEp ms mf f (responses.flatMap itemsOf) m := by
  induction responses with
  | nil => intro m; simp [processQueries, processItems]
  | cons q rest ih =>
    intro m
    cases q with
    | error => simpa [processQueries, itemsOf] using ih m
    | ok items =>
      simp only [processQueries, List.flatMap_cons, itemsOf, processItems_append]
      cases h : processItems fuel contribEp ms mf f items m with
      | none => rfl
      | some r =>
        cases r with
        | error e => rfl
        | ok m2 => exact ih m2

theorem processItems_filter (fuel : Nat) (contribEp : String → Nat → PageResponse)
    (ms mf : Nat) (f : Bool) (items : List RepoItem) :
    ∀ m, processItems fuel contribEp ms mf f items m =
      processItems fuel contribEp ms mf f
        (items.filter fun r =>
          decide (ms ≤ r.stargazers_count) && decide (mf ≤ r.forks_count)) m := by
  induction items with
  | nil => intro m; rfl
  | cons hd tl ih =>
    intro m
    by_cases hpass : ms ≤ hd.stargazers_count ∧ mf ≤ hd.forks_count
    · rw [List.filter_cons_of_pos (by simp [hpass.1, hpass.2])]
      simp only [processItems]
      by_cases hlk : (m.lookup hd.id).isNone
      · rw [if_pos ⟨hpass.1, hpass.2, hlk⟩, if_pos ⟨hpass.1, hpass.2, hlk⟩]
        cases hb : buildRepo fuel contribEp f hd with
        | none => rfl
        | some r =>
          cases r with
          | error e => rfl
          | ok rec => exact ih _
      · have hniff : ¬(ms ≤ hd.stargazers_count ∧ mf ≤ hd.forks_count ∧
            (m.lookup hd.id).isNone) := fun hcon => hlk hcon.2.2
        rw [if_neg hniff, if_neg hniff]
        exact ih m
    · rw [List.filter_cons_of_neg (by simpa using hpass)]
      simp only [processItems]
      rw [if_neg fun hcon => hpass ⟨hcon.1, hcon.2.1⟩]
      exact ih m

theorem processItems_ok_spec (fuel : Nat) (contribEp : String → Nat → PageResponse)
    (ms mf : Nat) (f : Bool) (s : List RepoItem) :
    ∀ m m', (∀ r ∈ s, ms ≤ r.stargazers_count ∧ mf ≤ r.forks_count) →
      processItems fuel contribEp ms mf f s m = some (.ok m') →
      ((m.map Prod.fst).Nodup → (m'.map Prod.fst).Nodup) ∧
      (∀ id rec, (id, rec) ∈ m' → (id, rec) ∈ m ∨
        (m.lookup id = none ∧
         ∃ item, s.find? (fun r => r.id == id) = some item ∧
           buildRepo fuel contribEp f item = some (.ok rec))) := by
  induction s with
  | nil =>
    intro m m' _ h
    simp [processItems] at h
    subst h
    exact ⟨fun hn => hn, fun id rec hmem => .inl hmem⟩
  | cons hd tl ih =>
    intro m m' hpass h
    have hpass_hd := hpass hd (List.mem_cons_self hd tl)
    have hpass_tl : ∀ r ∈ tl, ms ≤ r.stargazers_count ∧ mf ≤ r.forks_count :=
      fun r hr => hpass r (List.mem_cons_of_mem hd hr)
    simp only [processItems] at h
    by_cases hlk : (m.lookup hd.id).isNone
    · rw [if_pos ⟨hpass_hd.1, hpass_hd.2, hlk⟩] at h
      cases hb : buildRepo fuel contribEp f hd with
      | none => rw [hb] at h; simp at h
      | some r =>
        cases r with
        | error e => rw [hb] at h; simp at h
        | ok rec =>
          rw [hb] at h
          obtain ⟨hnd, hmem⟩ := ih (m ++ [(hd.id, rec)]) m' hpass_tl h
          have hmnone : m.lookup hd.id = none := Option.isNone_iff_eq_none.mp hlk
          have hfresh : hd.id ∉ m.map Prod.fst := by
            intro hmemk
            obtain ⟨p, hp, hpe⟩ := List.mem_map.mp hmemk
            have hne := (List.lookup_eq_none_iff.mp hmnone) p hp
            rw [hpe] at hne
            simp at hne
          refine ⟨?_, ?_⟩
          · intro hndm
            apply hnd
            simp only [List.map_append, List.map_cons, List.map_nil]
            simp [List.nodup_append, hndm, hfresh]
          · intro id rec' hmem'
            rcases hmem id rec' hmem' with hin | ⟨hnone, item, hfind, hbuild⟩
            · rcases List.mem_append.mp hin with hin | hin
              · exact .inl hin
              · right
                simp only [List.mem_singleton, Prod.mk.injEq] at hin
                obtain ⟨rfl, rfl⟩ := hin
                refine ⟨hmnone, hd, ?_, hb⟩
                exact List.find?_cons_of_pos _ (by simp)
            · right
              have hid_ne : id ≠ hd.id := by
                intro heq
                subst heq
                rw [List.lookup_append, hmnone] at hnone
                simp at hnone
              have hmnone' : m.lookup id = none := by
                rw [List.lookup_append] at hnone
                cases hml : m.lookup id with
                | none => rfl
                | some v => rw [hml] at hnone; simp at hnone
              refine ⟨hmnone', item, ?_, hbuild⟩
              rw [List.find?_cons_of_neg _ (by simp [Ne.symm hid_ne])]
              exact hfind
    · rw [if_neg fun hcon => hlk hcon.2.2] at h
      obtain ⟨hnd, hmem⟩ := ih m m' hpass_tl h
      have hsome : ∃ v, m.lookup hd.id = some v := by
        cases hml : m.lookup hd.id with
        | none => exact absurd (by simp [hml]) hlk
        | some v => exact ⟨v, rfl⟩
      refine ⟨hnd, fun id rec' hmem' => ?_⟩
      rcases hmem id rec' hmem' with hin | ⟨hnone, item, hfind, hbuild⟩
      · exact .inl hin
      · right
        have hid_ne : hd.id ≠ id := by
          intro heq
          obtain ⟨v, hv⟩ := hsome
          rw [heq, hnone] at hv
          cases hv
        refine ⟨hnone, item, ?_, hbuild⟩
        rw [List.find?_cons_of_neg _ (by simp [hid_ne])]
        exact hfind

end Languages

namespace Popular

theorem processItems_appendP (fuel : Nat) (contribEp : String → Nat → PageResponse)
    (f : Bool) (a b : List RepoItem) :
    ∀ m allc, processItems fuel contribEp f (a ++ b) m allc =
      match processItems fuel contribEp f a m allc with
      | none => none
      | some (.error e) => some (.error e)
      | some (.ok (m2, allc2)) => processItems fuel contribEp f b m2 allc2 := by
  induction a with
  | nil => intro m allc; simp [processItems]
  | cons hd tl ih =>
    intro m allc
    simp only [List.cons_append, processItems]
    by_cases h : (m.lookup hd.id).isNone
    · rw [if_pos h, if_pos h]
      cases hb : buildRepo fuel contribEp f hd with
      | none => rfl
      | some r =>
        cases r with
        | error e => rfl
        | ok rc => exact ih _ _
    · rw [if_neg h, if_neg h]
      exact ih m allc

theorem processQueries_eq_processItemsP (fuel : Nat)
    (contribEp : String → Nat → PageResponse) (f : Bool)
    (responses : List QueryResponse) :
    ∀ m allc, processQueries fuel contribEp f responses m allc =
      processItems fuel contribEp f (responses.flatMap itemsOf) m allc := by
  induction responses with
  | nil => intro m allc; simp [processQueries, processItems]
  | cons q rest ih =>
    intro m allc
    cases q with
    | error => simpa [processQueries, itemsOf] using ih m allc
    | ok items =>
      simp only [processQueries, List.flatMap_cons, itemsOf, processItems_appendP]
      cases h : processItems fuel contribEp f items m allc with
      | none => rfl
      | some r =>
        cases r with
        | error e => rfl
        | ok st => exact ih st.1 st.2

theorem processItems_ok_specP (fuel : Nat) (contribEp : String → Nat → PageResponse)
    (f : Bool) (s : List RepoItem) :
    ∀ m allc m' allc',
      processItems fuel contribEp f s m allc = some (.ok (m', allc')) →
      ((m.map Prod.fst).Nodup → (m'.map Prod.fst).Nodup) ∧
      (∀ id rec, (id, rec) ∈ m' → (id, rec) ∈ m ∨
        (m.lookup id = none ∧
         ∃ item, s.find? (fun r => r.id == id) = some item ∧
           ∃ cs, buildRepo fuel contribEp f item = some (.ok (rec, cs)))) := by
  induction s with
  | nil =>
    intro m allc m' allc' h
    simp [processItems] at h
    obtain ⟨h1, h2⟩ := h
    subst h1
    exact ⟨fun hn => hn, fun id rec hmem => .inl hmem⟩
  | cons hd tl ih =>
    intro m allc m' allc' h
    simp only [processItems] at h
    by_cases hlk : (m.lookup hd.id).isNone
    · rw [if_pos hlk] at h
      cases hb : buildRepo fuel contribEp f hd with
      | none => rw [hb] at h; simp at h
      | some r =>
        cases r with
        | error e => rw [hb] at h; simp at h
        | ok rc =>
          rw [hb] at h
          obtain ⟨hnd, hmem⟩ := ih (m ++ [(hd.id, rc.1)]) (allc ++ rc.2) m' allc' h
          have hmnone : m.lookup hd.id = none := Option.isNone_iff_eq_none.mp hlk
          have hfresh : hd.id ∉ m.map Prod.fst := by
            intro hmemk
            obtain ⟨p, hp, hpe⟩ := List.mem_map.mp hmemk
            have hne := (List.lookup_eq_none_iff.mp hmnone) p hp
            rw [hpe] at hne
            simp at hne
          refine ⟨?_, ?_⟩
          · intro hndm
            apply hnd
            simp only [List.map_append, List.map_cons, List.map_nil]
            simp [List.nodup_append, hndm, hfresh]
          · intro id rec' hmem'
            rcases hmem id rec' hmem' with hin | ⟨hnone, item, hfind, cs, hbuild⟩
            · rcases List.mem_append.mp hin with hin | hin
              · exact .inl hin
              · right
                simp only [List.mem_singleton, Prod.mk.injEq] at hin
                obtain ⟨rfl, rfl⟩ := hin
                refine ⟨hmnone, hd, ?_, rc.2, ?_⟩
                · exact List.find?_cons_of_pos _ (by simp)
                · rw [hb]
            · right
              have hid_ne : id ≠ hd.id := by
                intro heq
                subst heq
                rw [List.lookup_append, hmnone] at hnone
                simp at hnone
              have hmnone' : m.lookup id = none := by
                rw [List.lookup_append] at hnone
                cases hml : m.lookup id with
                | none => rfl
                | some v => rw [hml] at hnone; simp at hnone
              refine ⟨hmnone', item, ?_, cs, hbuild⟩
              rw [List.find?_cons_of_neg _ (by simp [Ne.symm hid_ne])]
              exact hfind
    · rw [if_neg hlk] at h
      obtain ⟨hnd, hmem⟩ := ih m allc m' allc' h
      have hsome : ∃ v, m.lookup hd.id = some v := by
        cases hml : m.lookup hd.id with
        | none => exact absurd (by simp [hml]) hlk
        | some v => exact ⟨v, rfl⟩
      refine ⟨hnd, fun id rec' hmem' => ?_⟩
      rcases hmem id rec' hmem' with hin | ⟨hnone, item, hfind, cs, hbuild⟩
      · exact .inl hin
      · right
        have hid_ne : hd.id ≠ id := by
          intro heq
          obtain ⟨v, hv⟩ := hsome
          rw [heq, hnone] at hv
          cases hv
        refine ⟨hnone, item, ?_, cs, hbuild⟩
        rw [List.find?_cons_of_neg _ (by simp [hid_ne])]
        exact hfind

end Popular

theorem insertionSort_key_chain {α : Type} (key : α → Nat) (l : List α) :
    List.Chain' (fun a b => key b ≤ key a)
      (List.insertionSort (fun a b => key b ≤ key a) l) := by
  haveI : IsTotal α fun a b => key b ≤ key a :=
    ⟨fun a b => (Nat.le_total (key b) (key a)).imp id id⟩
  haveI : IsTrans α fun a b => key b ≤ key a :=
    ⟨fun a b c hab hbc => Nat.le_trans hbc hab⟩
  exact (List.sorted_insertionSort _ l).chain'

theorem insertionSort_filter_stable {α : Type} (r : α → α → Prop) [DecidableRel r]
    (p : α → Bool) (hp : ∀ a b, p a → p b → r a b) (l : List α) :
    (List.insertionSort r l).filter p = l.filter p := by
  have hpair : (l.filter p).Pairwise r :=
    List.pairwise_of_forall_mem_list fun a ha b hb =>
      hp a b (List.mem_filter.mp ha).2 (List.mem_filter.mp hb).2
  have hsub : List.Sublist (l.filter p) (List.insertionSort r l) :=
    List.sublist_insertionSort hpair (List.filter_sublist l)
  have hself : (l.filter p).filter p = l.filter p :=
    List.filter_eq_self.mpr fun a ha => (List.mem_filter.mp ha).2
  have h2 : List.Sublist (l.filter p) ((List.insertionSort r l).filter p) := by
    have h3 := hsub.filter p
    rwa [hself] at h3
  have hperm : List.Perm ((List.insertionSort r l).filter p) (l.filter p) :=
    (List.perm_insertionSort r l).filter p
  exact (h2.eq_of_length hperm.length_eq.symm).symm

namespace Languages

theorem run_ok_spec (fuel : Nat) (contribEp : String → Nat → PageResponse)
    (ms mf : Nat) (f : Bool) (responses : List QueryResponse)
    (m : List (Nat × LanguageRepo))
    (h : processQueries fuel contribEp ms mf f responses [] = some (.ok m)) :
    (m.map Prod.fst).Nodup ∧
    ∀ id rec, (id, rec) ∈ m →
      ∃ item, (survivors ms mf responses).find? (fun r => r.id == id) = some item ∧
        buildRepo fuel contribEp f item = some (.ok rec) := by
  rw [processQueries_eq_processItems, processItems_filter] at h
  have hspec := processItems_ok_spec fuel contribEp ms mf f
    (survivors ms mf responses) [] m
    (by
      intro r hr
      have hmem := (List.mem_filter.mp hr).2
      simp only [Bool.and_eq_true, decide_eq_true_eq] at hmem
      exact hmem)
    h
  refine ⟨hspec.1 (by simp), fun id rec hm => ?_⟩
  rcases hspec.2 id rec hm with hin | ⟨_, hex⟩
  · exact absurd hin (List.not_mem_nil _)
  · exact hex

theorem search_eq_sorted (fuel : Nat) (contribEp : String → Nat → PageResponse)
    (responses : List QueryResponse) (ms mf : Nat) (f : Bool)
    (m : List (Nat × LanguageRepo))
    (h : processQueries fuel contribEp ms mf f responses [] = some (.ok m)) :
    search_language_repos fuel contribEp responses ms mf f =
      some (.ok (List.insertionSort (fun a b => b.stars ≤ a.stars)
        (m.map Prod.snd))) := by
  simp [search_language_repos, h]

theorem search_ok_inv (fuel : Nat) (contribEp : String → Nat → PageResponse)
    (responses : List QueryResponse) (ms mf : Nat) (f : Bool)
    (out : List LanguageRepo)
    (h : search_language_repos fuel contribEp responses ms mf f = some (.ok out)) :
    ∃ m, processQueries fuel contribEp ms mf f responses [] = some (.ok m) ∧
      out = List.insertionSort (fun a b => b.stars ≤ a.stars) (m.map Prod.snd) := by
  unfold search_language_repos at h
  cases hq : processQueries fuel contribEp ms mf f responses [] with
  | none => rw [hq] at h; simp at h
  | some r =>
    cases r with
    | error e => rw [hq] at h; simp at h
    | ok m =>
      rw [hq] at h
      simp only [Option.some.injEq, Except.ok.injEq] at h
      exact ⟨m, rfl, h.symm⟩

theorem insertion_list_eq (fuel : Nat) (contribEp : String → Nat → PageResponse)
    (responses : List QueryResponse) (ms mf : Nat) (f : Bool)
    (m : List (Nat × LanguageRepo))
    (h : processQueries fuel contribEp ms mf f responses [] = some (.ok m)) :
    insertion_list fuel contribEp responses ms mf f = some (.ok (m.map Prod.snd)) := by
  simp [insertion_list, h]

end Languages

namespace Popular

theorem run_ok_specP (fuel : Nat) (contribEp : String → Nat → PageResponse)
    (f : Bool) (responses : List QueryResponse)
    (m : List (Nat × BlockchainRepo)) (allc : List Contributor)
    (h : processQueries fuel contribEp f responses [] [] = some (.ok (m, allc))) :
    (m.map Prod.fst).Nodup ∧
    ∀ id rec, (id, rec) ∈ m →
      ∃ item, (responses.flatMap itemsOf).find? (fun r => r.id == id) = some item ∧
        ∃ cs, buildRepo fuel contribEp f item = some (.ok (rec, cs)) := by
  rw [processQueries_eq_processItemsP] at h
  have hspec := processItems_ok_specP fuel contribEp f
    (responses.flatMap itemsOf) [] [] m allc h
  refine ⟨hspec.1 (by simp), fun id rec hm => ?_⟩
  rcases hspec.2 id rec hm with hin | ⟨_, hex⟩
  · exact absurd hin (List.not_mem_nil _)
  · exact hex

theorem search_eq_sortedP (fuel : Nat) (contribEp : String → Nat → PageResponse)
    (responses : List QueryResponse) (f : Bool)
    (m : List (Nat × BlockchainRepo)) (allc : List Contributor)
    (h : processQueries fuel contribEp f responses [] [] = some (.ok (m, allc))) :
    search_blockchain_repos fuel contribEp responses f =
      some (.ok (List.insertionSort (fun a b => b.stars ≤ a.stars)
        (m.map Prod.snd))) := by
  simp [search_blockchain_repos, h]

theorem search_ok_invP (fuel : Nat) (contribEp : String → Nat → PageResponse)
    (responses : List QueryResponse) (f : Bool) (out : List BlockchainRepo)
    (h : search_blockchain_repos fuel contribEp responses f = some (.ok out)) :
    ∃ m allc, processQueries fuel contribEp f responses [] [] = some (.ok (m, allc)) ∧
      out = List.insertionSort (fun a b => b.stars ≤ a.stars) (m.map Prod.snd) := by
  unfold search_blockchain_repos at h
  cases hq : processQueries fuel contribEp f responses [] [] with
  | none => rw [hq] at h; simp at h
  | some r =>
    cases r with
    | error e => rw [hq] at h; simp at h
    | ok st =>
      rw [hq] at h
      simp only [Option.some.injEq, Except.ok.injEq] at h
      exact ⟨st.1, st.2, rfl, h.symm⟩

theorem insertion_list_eqP (fuel : Nat) (contribEp : String → Nat → PageResponse)
    (responses : List QueryResponse) (f : Bool)
    (m : List (Nat × BlockchainRepo)) (allc : List Contributor)
    (h : processQueries fuel contribEp f responses [] [] = some (.ok (m, allc))) :
    insertion_list fuel contribEp responses f = some (.ok (m.map Prod.snd)) := by
  simp [insertion_list, h]

end Popular

/-- C2: for every run of either search aggregator, the accumulated mapping
keyed by repository id has pairwise-distinct identifiers, every stored record
is built from the first surviving item bearing its id (first-seen-wins, in
query order then within-query order; items of failed queries and, in the
languages variant, items below the thresholds are not seen), and the
returned collection is exactly that mapping's values, stably sorted. -/
theorem C2_dedup_first_seen :
    (∀ (fuel : Nat) (contribEp : String → Nat → PageResponse)
        (responses : List QueryResponse) (ms mf : Nat) (f : Bool)
        (m : List (Nat × Languages.LanguageRepo)),
      Languages.processQueries fuel contribEp ms mf f responses [] =
          some (.ok m) →
      (m.map Prod.fst).Nodup ∧
      (∀ id rec, (id, rec) ∈ m →
        ∃ item,
          (Languages.survivors ms mf responses).find? (fun r => r.id == id) =
            some item ∧
          Languages.buildRepo fuel contribEp f item = some (.ok rec)) ∧
      Languages.search_language_repos fuel contribEp responses ms mf f =
        some (.ok (List.insertionSort (fun a b => b.stars ≤ a.stars)
          (m.map Prod.snd)))) ∧
    (∀ (fuel : Nat) (contribEp : String → Nat → PageResponse)
        (responses : List QueryResponse) (f : Bool)
        (m : List (Nat × Popular.BlockchainRepo))
        (allc : List Popular.Contributor),
      Popular.processQueries fuel contribEp f responses [] [] =
          some (.ok (m, allc)) →
      (m.map Prod.fst).Nodup ∧
      (∀ id rec, (id, rec) ∈ m →
        ∃ item,
          (responses.flatMap itemsOf).find? (fun r => r.id == id) = some item ∧
          ∃ cs, Popular.buildRepo fuel contribEp f item = some (.ok (rec, cs))) ∧
      Popular.search_blockchain_repos fuel contribEp responses f =
        some (.ok (List.insertionSort (fun a b => b.stars ≤ a.stars)
          (m.map Prod.snd)))) := by
  constructor
  · intro fuel contribEp responses ms mf f m h
    have hspec := Languages.run_ok_spec fuel contribEp ms mf f responses m h
    exact ⟨hspec.1, hspec.2,
      Languages.search_eq_sorted fuel contribEp responses ms mf f m h⟩
  · intro fuel contribEp responses f m allc h
    have hspec := Popular.run_ok_specP fuel contribEp f responses m allc h
    exact ⟨hspec.1, hspec.2,
      Popular.search_eq_sortedP fuel contribEp responses f m allc h⟩

/-- Witness for C2 at a concrete run: ids 1, 2, 3 with id 1 recurring in a
later query and a failing middle query, for both variants. -/
theorem C2_dedup_first_seen_witness :
    ((c2map.map Prod.fst).Nodup ∧
      Languages.search_language_repos 1 (fun _ => epGood) c2responses 0 0 false =
        some (.ok (List.insertionSort (fun a b => b.stars ≤ a.stars)
          (c2map.map Prod.snd)))) ∧
    ((c2mapP.map Prod.fst).Nodup ∧
      Popular.search_blockchain_repos 1 (fun _ => epGood) c2responses false =
        some (.ok (List.insertionSort (fun a b => b.stars ≤ a.stars)
          (c2mapP.map Prod.snd)))) := by
  have h1 := C2_dedup_first_seen.1 1 (fun _ => epGood) c2responses 0 0 false
    c2map rfl
  have h2 := C2_dedup_first_seen.2 1 (fun _ => epGood) c2responses false
    c2mapP [] rfl
  exact ⟨⟨h1.1, h1.2.2⟩, ⟨h2.1, h2.2.2⟩⟩

/-- C3: the returned collection of either aggregator is non-increasing in
`stars`, and records of any fixed star count appear in exactly their
insertion order: filtering the output at any star value gives the same list
as filtering the pre-sort insertion-order value sequence. -/
theorem C3_sorted_stable :
    (∀ (fuel : Nat) (contribEp : String → Nat → PageResponse)
        (responses : List QueryResponse) (ms mf : Nat) (f : Bool)
        (out : List Languages.LanguageRepo),
      Languages.search_language_repos fuel contribEp responses ms mf f =
          some (.ok out) →
      List.Chain' (fun a b => b.stars ≤ a.stars) out ∧
      ∃ ins, Languages.insertion_list fuel contribEp responses ms mf f =
          some (.ok ins) ∧
        ∀ s, out.filter (fun r => r.stars == s) =
          ins.filter (fun r => r.stars == s)) ∧
    (∀ (fuel : Nat) (contribEp : String → Nat → PageResponse)
        (responses : List QueryResponse) (f : Bool)
        (out : List Popular.BlockchainRepo),
      Popular.search_blockchain_repos fuel contribEp responses f =
          some (.ok out) →
      List.Chain' (fun a b => b.stars ≤ a.stars) out ∧
      ∃ ins, Popular.insertion_list fuel contribEp responses f =
          some (.ok ins) ∧
        ∀ s, out.filter (fun r => r.stars == s) =
          ins.filter (fun r => r.stars == s)) := by
  constructor
  · intro fuel contribEp responses ms mf f out h
    obtain ⟨m, hq, rfl⟩ :=
      Languages.search_ok_inv fuel contribEp responses ms mf f out h
    refine ⟨insertionSort_key_chain (fun r => r.stars) (m.map Prod.snd),
      m.map Prod.snd,
      Languages.insertion_list_eq fuel contribEp responses ms mf f m hq,
      fun s => ?_⟩
    exact insertionSort_filter_stable (fun a b => b.stars ≤ a.stars)
      (fun r => r.stars == s)
      (fun a b ha hb => by
        simp only [beq_iff_eq] at ha hb
        omega)
      (m.map Prod.snd)
  · intro fuel contribEp responses f out h
    obtain ⟨m, allc, hq, rfl⟩ :=
      Popular.search_ok_invP fuel contribEp responses f out h
    refine ⟨insertionSort_key_chain (fun r => r.stars) (m.map Prod.snd),
      m.map Prod.snd,
      Popular.insertion_list_eqP fuel contribEp responses f m allc hq,
      fun s => ?_⟩
    exact insertionSort_filter_stable (fun a b => b.stars ≤ a.stars)
      (fun r => r.stars == s)
      (fun a b ha hb => by
        simp only [beq_iff_eq] at ha hb
        omega)
      (m.map Prod.snd)

/-- Witness for C3 at a concrete run with a 50-star tie across queries: the
output is star-descending with the tie in insertion order. -/
theorem C3_sorted_stable_witness :
    List.Chain' (fun a b : Languages.LanguageRepo => b.stars ≤ a.stars) c3out ∧
    List.Chain' (fun a b : Popular.BlockchainRepo => b.stars ≤ a.stars) c3outP := by
  have h1 := (C3_sorted_stable.1 1 (fun _ => epGood) c3responses 0 0 false
    c3out rfl).1
  have h2 := (C3_sorted_stable.2 1 (fun _ => epGood) c3responses false
    c3outP rfl).1
  exact ⟨h1, h2⟩

/-- C10: when contributor enrichment is not requested, every record of either
aggregator's output has `contributors = None` and the completeness flag
`False`, whatever the API responses. -/
theorem C10_no_fetch_defaults :
    (∀ (fuel : Nat) (contribEp : String → Nat → PageResponse)
        (responses : List QueryResponse) (ms mf : Nat)
        (out : List Languages.LanguageRepo),
      Languages.search_language_repos fuel contribEp responses ms mf false =
          some (.ok out) →
      ∀ r ∈ out, r.contributors = none ∧ r.all_contributors_fetched = false) ∧
    (∀ (fuel : Nat) (contribEp : String → Nat → PageResponse)
        (responses : List QueryResponse) (out : List Popular.BlockchainRepo),
      Popular.search_blockchain_repos fuel contribEp responses false =
          some (.ok out) →
      ∀ r ∈ out, r.contributors = none ∧ r.all_contributors_fetched = false) := by
  constructor
  · intro fuel contribEp responses ms mf out h r hr
    obtain ⟨m, hq, rfl⟩ :=
      Languages.search_ok_inv fuel contribEp responses ms mf false out h
    rw [List.mem_insertionSort] at hr
    obtain ⟨p, hp, rfl⟩ := List.mem_map.mp hr
    have hspec := (Languages.run_ok_spec fuel contribEp ms mf false responses m hq).2
      p.1 p.2 (by simpa using hp)
    obtain ⟨item, _, hbuild⟩ := hspec
    simp only [Languages.buildRepo, if_neg Bool.false_ne_true, Option.some.injEq,
      Except.ok.injEq] at hbuild
    rw [← hbuild]
    exact ⟨rfl, rfl⟩
  · intro fuel contribEp responses out h r hr
    obtain ⟨m, allc, hq, rfl⟩ :=
      Popular.search_ok_invP fuel contribEp responses false out h
    rw [List.mem_insertionSort] at hr
    obtain ⟨p, hp, rfl⟩ := List.mem_map.mp hr
    have hspec := (Popular.run_ok_specP fuel contribEp false responses m allc hq).2
      p.1 p.2 (by simpa using hp)
    obtain ⟨item, _, cs, hbuild⟩ := hspec
    simp only [Popular.buildRepo, if_neg Bool.false_ne_true, Option.some.injEq,
      Except.ok.injEq, Prod.mk.injEq] at hbuild
    rw [← hbuild.1]
    exact ⟨rfl, rfl⟩

/-- Witness for C10 at concrete no-enrichment runs of both variants. -/
theorem C10_no_fetch_defaults_witness :
    ((Languages.mkLanguageRepo itemB none false).contributors = none ∧
      (Languages.mkLanguageRepo itemB none false).all_contributors_fetched = false) ∧
    ((Popular.mkBlockchainRepo itemA none false).contributors = none ∧
      (Popular.mkBlockchainRepo itemA none false).all_contributors_fetched = false) := by
  have h1 := C10_no_fetch_defaults.1 1 (fun _ => epGood) [.ok [itemB]] 0 0
    [Languages.mkLanguageRepo itemB none false] rfl
    (Languages.mkLanguageRepo itemB none false) (List.mem_singleton.mpr rfl)
  have h2 := C10_no_fetch_defaults.2 1 (fun _ => epGood) [.ok [itemA]]
    [Popular.mkBlockchainRepo itemA none false] rfl
    (Popular.mkBlockchainRepo itemA none false) (List.mem_singleton.mpr rfl)
  exact ⟨h1, h2⟩

theorem strLe_total : ∀ a b, GetData.strLe a b ∨ GetData.strLe b a := by
  intro a
  induction a with
  | nil => intro b; left; rfl
  | cons c cs ih =>
    intro b
    cases b with
    | nil => right; rfl
    | cons d ds =>
      by_cases h1 : c.toNat < d.toNat
      · left; simp [GetData.strLe, h1]
      · by_cases h2 : d.toNat < c.toNat
        · right; simp [GetData.strLe, h2]
        · rcases ih ds with h | h
          · left; simp [GetData.strLe, h1, h2, h]
          · right; simp [GetData.strLe, h1, h2, h]

theorem strLe_trans :
    ∀ a b c, GetData.strLe a b → GetData.strLe b c → GetData.strLe a c := by
  intro a
  induction a with
  | nil => intro b c _ _; rfl
  | cons x xs ih =>
    intro b c hab hbc
    cases b with
    | nil => simp [GetData.strLe] at hab
    | cons y ys =>
      cases c with
      | nil => simp [GetData.strLe] at hbc
      | cons z zs =>
        simp only [GetData.strLe] at hab hbc ⊢
        by_cases hxy : x.toNat < y.toNat
        · by_cases hyz : y.toNat < z.toNat
          · simp [show x.toNat < z.toNat by omega]
          · by_cases hzy : z.toNat < y.toNat
            · simp [hyz, hzy] at hbc
            · simp [show x.toNat < z.toNat by omega]
        · by_cases hyx : y.toNat < x.toNat
          · simp [hxy, hyx] at hab
          · by_cases hyz : y.toNat < z.toNat
            · simp [show x.toNat < z.toNat by omega]
            · by_cases hzy : z.toNat < y.toNat
              · simp [hyz, hzy] at hbc
              · have hxz : ¬x.toNat < z.toNat := by omega
                have hzx : ¬z.toNat < x.toNat := by omega
                simp only [if_neg hxz, if_neg hzx]
                simp only [if_neg hxy, if_neg hyx] at hab
                simp only [if_neg hyz, if_neg hzy] at hbc
                exact ih ys zs hab hbc

/-- C5 counterexample: a contributor entry missing the `contributions` key is
not treated as a TransportError — the `KeyError` raised by
`c['contributions']` escapes every `except requests.RequestException` handler
and aborts the whole aggregation, so the run's result is the uncaught
exception rather than a continued run. -/
theorem C5_missing_field_counterexample :
    Languages.search_language_repos 3 (fun _ => epBad) [.ok [itemA]] 0 0 true =
      some (.error .keyError) := rfl

/-- C5 amended: JSON-level transport failures raise
`requests.RequestException` and are caught, and the optional contributor
fields (`login`, `html_url`, `type`) get sentinel defaults — but a missing
`contributions` key raises `KeyError`, which no handler catches: it aborts
the entire run, discarding even the earlier queries' results (fatal to the
process). -/
theorem C5_missing_field_fatal :
    (∀ c : CEntry, c.contributions = none →
      Languages.mkContributor c = .error .keyError) ∧
    (∀ (c : CEntry) (n : Nat), c.contributions = some n →
      Languages.mkContributor c =
        .ok { username := c.login.getD "anonymous", contributions := n,
              profile := c.html_url.getD "", type := c.type.getD "Anonymous" }) ∧
    Languages.search_language_repos 3
        (fun name => if name == "octo/alpha" then epBad else epGood)
        [.ok [itemB], .ok [itemA]] 0 0 true =
      some (.error .keyError) := by
  refine ⟨?_, ?_, rfl⟩
  · intro c hc; simp [Languages.mkContributor, hc]
  · intro c n hc; simp [Languages.mkContributor, hc]

/-- Witness for the amended C5 at concrete entries. -/
theorem C5_missing_field_fatal_witness :
    Languages.mkContributor badEntry = .error .keyError ∧
    Languages.mkContributor (sampleEntry 4) =
      .ok { username := "user4", contributions := 5,
            profile := "https://example.org", type := "User" } := by
  constructor
  · exact C5_missing_field_fatal.1 badEntry rfl
  · exact C5_missing_field_fatal.2.1 (sampleEntry 4) 5 rfl

/-- C6 counterexample: the JSON written by `save_results` of
`src/languages/scrape.py` omits the dataclass field
`all_contributors_fetched`: at a concrete record the serialized object has no
such key, refuting field-for-field completeness of the claim. -/
theorem C6_flag_missing_counterexample :
    ¬ "all_contributors_fetched" ∈ (Languages.repoJson sampleLanguageRepo).keys := by
  decide

/-- C6 amended: the popular variant (`vars(repo)`) serializes every record
field including the contributor-completeness flag; the languages variant
serializes every field of its hand-written dict — name, stars, forks,
last_updated, description, topics, url, language, contributors — but omits
`all_contributors_fetched`. -/
theorem C6_json_fields :
    ∀ (r : Languages.LanguageRepo) (b : Popular.BlockchainRepo),
      (Languages.repoJson r).keys =
        ["name", "stars", "forks", "last_updated", "description", "topics",
         "url", "language", "contributors"] ∧
      (Languages.repoJson r).lookup "all_contributors_fetched" = none ∧
      (Languages.repoJson r).lookup "stars" = some (.num r.stars) ∧
      (Languages.repoJson r).lookup "contributors" =
        some (match r.contributors with
          | none => .null
          | some cs => .arr (cs.map Languages.contributorJson)) ∧
      (Popular.repoJson b).keys =
        ["name", "stars", "forks", "last_updated", "description", "topics",
         "url", "contributors", "all_contributors_fetched"] ∧
      (Popular.repoJson b).lookup "all_contributors_fetched" =
        some (.bool b.all_contributors_fetched) ∧
      (Popular.repoJson b).lookup "stars" = some (.num b.stars) := by
  intro r b
  exact ⟨rfl, rfl, rfl, rfl, rfl, rfl, rfl⟩

/-- C8: a `null` source description yields the empty string in the built
record (both variants), and a contributor entry without a `login` key yields
username "anonymous", with the account type falling back to "Anonymous" when
absent (both variants). -/
theorem C8_sentinel_defaults :
    (∀ (item : RepoItem) (cs : Option (List Languages.Contributor)) (fl : Bool),
      item.description = none →
      (Languages.mkLanguageRepo item cs fl).description = "") ∧
    (∀ (item : RepoItem) (cs : Option (List Popular.Contributor)) (fl : Bool),
      item.description = none →
      (Popular.mkBlockchainRepo item cs fl).description = "") ∧
    (∀ (c : CEntry) (n : Nat), c.login = none → c.contributions = some n →
      ∃ rec, Languages.mkContributor c = .ok rec ∧ rec.username = "anonymous" ∧
        (c.type = none → rec.type = "Anonymous")) ∧
    (∀ (c : CEntry) (n : Nat) (rn : String),
      c.login = none → c.contributions = some n →
      ∃ rec, Popular.mkContributor rn c = .ok rec ∧ rec.username = "anonymous" ∧
        (c.type = none → rec.type = "Anonymous")) := by
  refine ⟨?_, ?_, ?_, ?_⟩
  · intro item cs fl h; simp [Languages.mkLanguageRepo, pyOrEmptyStr, h]
  · intro item cs fl h; simp [Popular.mkBlockchainRepo, pyOrEmptyStr, h]
  · intro c n hl hc
    exact ⟨{ username := c.login.getD "anonymous", contributions := n,
             profile := c.html_url.getD "", type := c.type.getD "Anonymous" },
           by simp [Languages.mkContributor, hc], by simp [hl],
           fun ht => by simp [ht]⟩
  · intro c n rn hl hc
    exact ⟨{ username := c.login.getD "anonymous", contributions := n,
             profile := c.html_url.getD "", type := c.type.getD "Anonymous",
             repo := rn },
           by simp [Popular.mkContributor, hc], by simp [hl],
           fun ht => by simp [ht]⟩

/-- Witness for C8 at concrete inputs: `itemB` has a null description,
`anonEntry` lacks the `login` and `type` keys. -/
theorem C8_sentinel_defaults_witness :
    (Languages.mkLanguageRepo itemB none false).description = "" ∧
    (Popular.mkBlockchainRepo itemB none false).description = "" ∧
    (∃ rec, Languages.mkContributor anonEntry = .ok rec ∧
      rec.username = "anonymous" ∧ (anonEntry.type = none → rec.type = "Anonymous")) ∧
    (∃ rec, Popular.mkContributor "octo/alpha" anonEntry = .ok rec ∧
      rec.username = "anonymous" ∧ (anonEntry.type = none → rec.type = "Anonymous")) := by
  exact ⟨C8_sentinel_defaults.1 itemB none false rfl,
         C8_sentinel_defaults.2.1 itemB none false rfl,
         C8_sentinel_defaults.2.2.1 anonEntry 3 rfl rfl,
         C8_sentinel_defaults.2.2.2 anonEntry 3 "octo/alpha" rfl rfl⟩

/-- C9: the bytes of the JSON report of a full languages-variant run depend
only on the API responses and run parameters, never on the wall-clock
timestamp, which enters only the Markdown report: two runs on identical
responses produce byte-identical JSON output. -/
theorem C9_json_deterministic :
    ∀ (fuel : Nat) (contribEp : String → Nat → PageResponse)
      (responses : List QueryResponse) (ms mf : Nat) (f : Bool)
      (language now1 now2 : String),
      (Languages.pipelineOutput fuel contribEp responses ms mf f language now1).map
          (fun e => e.map Prod.snd) =
        (Languages.pipelineOutput fuel contribEp responses ms mf f language now2).map
          (fun e => e.map Prod.snd) := by
  intro fuel contribEp responses ms mf f language now1 now2
  unfold Languages.pipelineOutput
  cases Languages.search_language_repos fuel contribEp responses ms mf f with
  | none => rfl
  | some r =>
    cases r with
    | error e => rfl
    | ok repos => rfl

/-- C7: the CSV header derived by `get_data` is alphabetically sorted (code
point order, as Python compares strings), duplicate-free, and contains
exactly the union of the keys of the included (target-chain) entries; and in
any data row, the cell at the position of a field absent from that entry is
the empty string. -/
theorem C7_csv_header_union :
    ∀ data : List GetData.Protocol,
      (GetData.fieldnames (GetData.solana_protocols data)).Pairwise
        (fun a b => GetData.pyStrLe a b) ∧
      (GetData.fieldnames (GetData.solana_protocols data)).Nodup ∧
      (∀ f, f ∈ GetData.fieldnames (GetData.solana_protocols data) ↔
        ∃ p ∈ GetData.solana_protocols data, f ∈ p.map Prod.fst) ∧
      (∀ p ∈ GetData.solana_protocols data, ∀ (i : Nat) (f : String),
        (GetData.fieldnames (GetData.solana_protocols data))[i]? = some f →
        p.lookup f = none →
        (GetData.csvRow (GetData.fieldnames (GetData.solana_protocols data)) p)[i]? =
          some "") := by
  intro data
  haveI htot : IsTotal String fun a b => GetData.pyStrLe a b :=
    ⟨fun a b => strLe_total a.data b.data⟩
  haveI htr : IsTrans String fun a b => GetData.pyStrLe a b :=
    ⟨fun a b c => strLe_trans a.data b.data c.data⟩
  refine ⟨?_, ?_, ?_, ?_⟩
  · exact List.sorted_insertionSort _ _
  · exact ((List.perm_insertionSort _ _).nodup_iff).mpr (List.nodup_dedup _)
  · intro f
    rw [GetData.fieldnames, List.mem_insertionSort, List.mem_dedup,
      List.mem_flatMap]
  · intro p _ i f hf hlookup
    rw [GetData.csvRow, List.getElem?_map, hf]
    simp [hlookup]

/-- Witness for C7 at the spec's heterogeneous example: included entries with
field sets containing `category` resp. `change_1d`; the header is their
sorted union and a cell of an absent field is empty. -/
theorem C7_csv_header_union_witness :
    GetData.fieldnames (GetData.solana_protocols [protoA, protoB, protoC]) =
      ["category", "chains", "change_1d", "name", "tvl"] ∧
    ("change_1d" ∈ GetData.fieldnames (GetData.solana_protocols [protoA, protoB, protoC]) ↔
      ∃ p ∈ GetData.solana_protocols [protoA, protoB, protoC],
        "change_1d" ∈ p.map Prod.fst) ∧
    (GetData.csvRow
        (GetData.fieldnames (GetData.solana_protocols [protoA, protoB, protoC]))
        protoB)[0]? = some "" := by
  refine ⟨rfl, (C7_csv_header_union [protoA, protoB, protoC]).2.2.1 "change_1d", ?_⟩
  exact (C7_csv_header_union [protoA, protoB, protoC]).2.2.2 protoB (by decide)
    0 "category" rfl rfl
